import Mathlib

/-!
# Verification of `get_acs_api_data.py`

A shallow embedding of the single-script pipeline
`src/analysis_child_care_stata_python/get_acs_api_data.py`:
build a census API query, fetch, reshape the raw JSON table,
compute a derived total, drop columns and write a CSV file.

Cells of the in-memory table are either raw strings or numbers
(the script coerces two columns with `pd.to_numeric`).  Every
fallible stage (a crash of the Python script) is `Option`-valued:
`none` means the process dies with an unhandled exception and no
output file is written.

The numeric model is integer-celled, matching the dataset (the spec's
data model: "numeric columns must parse as integers"): `parseInt` is
exactly the integral fragment of `pd.to_numeric` (optional whitespace,
optional sign, digits).  Strings the library converts to floats
("3.5", "1e3") are outside this model, so theorems conditional on model
success hold of the script, and the abort-propagation direction is
stated with `numericLexeme`, a generous superset of everything the
library can convert, so that rejection implies the library raises.
-/

set_option autoImplicit false

namespace Acs

universe u v

/-- A cell of the data frame: a raw string from the JSON payload, or an
integer produced by the `pd.to_numeric` coercion. -/
inductive Value where
  | str (s : String)
  | num (n : Int)
deriving DecidableEq, Repr

/-- The in-memory data frame: a list of column labels and the data rows
(the header row of the payload is consumed into `cols` by the shaper). -/
structure Table where
  cols : List String
  rows : List (List Value)
deriving DecidableEq, Repr

/-- The fixed mapping of census variable codes to display names
(`variables` in the script). -/
def variablesMap : List (String × String) :=
  [("B01001_003E", "pop_under5_male"), ("B01001_027E", "pop_under5_female")]

/-- `df.rename(columns = variables)` on one label: replace it by its display
name when the label is a known variable code, keep it otherwise. -/
def renameCol (c : String) : String :=
  match variablesMap.find? (fun p => p.1 == c) with
  | some p => p.2
  | none => c

/-- `pd.DataFrame(data)` followed by
`df.rename(columns = df.iloc[0]).drop([0]).rename(columns = variables)`:
the first payload row becomes the (renamed) column labels, the remaining
rows become string-valued data rows.  An empty payload crashes
(`df.iloc[0]` raises on an empty frame). -/
def shape0 : List (List String) → Option Table
  | [] => none
  | hdr :: rest => some ⟨hdr.map renameCol, rest.map (fun r => r.map Value.str)⟩

/-- One decimal digit. -/
def digit? (c : Char) : Option Nat :=
  if 48 ≤ c.toNat ∧ c.toNat ≤ 57 then some (c.toNat - 48) else none

/-- An ASCII decimal digit. -/
def isDigitChar (c : Char) : Bool := (digit? c).isSome

/-- An ASCII whitespace character (space, tab, LF, VT, FF, CR), the
characters the library's numeric parser skips around a value. -/
def isWs (c : Char) : Bool := c.toNat == 32 || (9 ≤ c.toNat && c.toNat ≤ 13)

/-- Strip leading and trailing whitespace. -/
def trimWs (l : List Char) : List Char :=
  (((l.dropWhile isWs).reverse).dropWhile isWs).reverse

/-- Parse a non-empty all-digit character list as a natural number. -/
def parseNatList : List Char → Option Nat
  | [] => none
  | [c] => digit? c
  | c :: cs =>
    match digit? c, parseNatList cs with
    | some d, some n => some (d * 10 ^ cs.length + n)
    | _, _ => none

/-- The integral fragment of `pd.to_numeric`: optional surrounding
whitespace, an optional sign, then decimal digits — exactly the strings the
library converts to an integer ("10", "+5", " 10").  Strings the library
converts to a float instead ("3.5", "1e3", "inf") are outside this
fragment and outside the integer-celled model; strings the library rejects
outright are characterised (from above) by `numericLexeme` below. -/
def parseInt (s : String) : Option Int :=
  match trimWs s.toList with
  | [] => none
  | c :: cs =>
    if c = Char.ofNat 45 then (parseNatList cs).map (fun n : Nat => -(n : Int))
    else if c = Char.ofNat 43 then
      (parseNatList cs).map (fun n : Nat => (n : Int))
    else (parseNatList (c :: cs)).map (fun n : Nat => (n : Int))

/-- Lowercase an ASCII letter. -/
def lowerChar (c : Char) : Char :=
  if 65 ≤ c.toNat ∧ c.toNat ≤ 90 then Char.ofNat (c.toNat + 32) else c

/-- The characters that can occur in any numeric literal the library
parses: digits, whitespace, sign, decimal point, exponent marker, complex
marker and parentheses, separator underscore, and (conservatively) any
non-ASCII character. -/
def numericAlphabet (c : Char) : Bool :=
  isDigitChar c || isWs c || 128 ≤ c.toNat ||
    (([46, 43, 45, 101, 69, 106, 74, 40, 41, 95] : List Nat).contains c.toNat)

/-- A character that could carry numeric content: an ASCII digit or
(conservatively) any non-ASCII character. -/
def hasDigitOrHigh (c : Char) : Bool := isDigitChar c || 128 ≤ c.toNat

/-- Drop one leading sign character. -/
def stripSign : List Char → List Char
  | [] => []
  | c :: cs =>
    if c = Char.ofNat 43 ∨ c = Char.ofNat 45 then cs else c :: cs

/-- The special words the library's parser converts to non-finite floats:
`inf`, `infinity` and `nan` in any case, with optional sign and
surrounding whitespace. -/
def specialWord (l : List Char) : Bool :=
  let core := (stripSign (trimWs l)).map lowerChar
  core == "inf".toList || core == "infinity".toList || core == "nan".toList

/-- A deliberately generous over-approximation of the set of strings
`pd.to_numeric` can convert: every string made only of `numericAlphabet`
characters with at least one digit-like character, plus the `inf`/`nan`
special words.  Every int, float and complex literal the library accepts
falls in this set, so a string this predicate rejects makes the library
raise — the sound direction for the abort-propagation claim.  (The set is
a strict superset of the accepted strings: e.g. "1.2.3" is in it but still
raises; such strings are simply not covered by the claim's theorem.) -/
def numericLexeme (s : String) : Bool :=
  (s.toList.all numericAlphabet && s.toList.any hasDigitOrHigh) ||
    specialWord s.toList

/-- `pd.to_numeric` on one cell: parse a string as an integer, keep a
number; an unparseable string raises. -/
def toNum : Value → Option Value
  | .str s => (parseInt s).map Value.num
  | .num n => some (.num n)

/-- `df[df.columns[0:2]] = df[df.columns[0:2]].apply(pd.to_numeric)` on one
row: coerce the cells at positions 0 and 1 (when present), keep the rest. -/
def convertRow : List Value → Option (List Value)
  | [] => some []
  | [a] => (toNum a).map (fun x => [x])
  | a :: b :: rest =>
    match toNum a, toNum b with
    | some x, some y => some (x :: y :: rest)
    | _, _ => none

/-- Apply a fallible per-row operation to every row; any failure aborts the
script. -/
def mapOption {α : Type u} {β : Type v} (f : α → Option β) : List α → Option (List β)
  | [] => some []
  | a :: as =>
    match f a, mapOption f as with
    | some b, some bs => some (b :: bs)
    | _, _ => none

/-- The numeric-coercion stage applied to the whole table. -/
def toNumeric (t : Table) : Option Table :=
  (mapOption convertRow t.rows).map (fun rs => ({ cols := t.cols, rows := rs } : Table))

/-- `df['pop_under5_male'] + df['pop_under5_female']` on one row, appended
as the new last cell (`i`, `j`: the positions of the two addend columns).
Non-numeric addends abort. -/
def addRow (i j : Nat) (r : List Value) : Option (List Value) :=
  match r[i]?, r[j]? with
  | some (.num x), some (.num y) => some (r ++ [Value.num (x + y)])
  | _, _ => none

/-- The same sum written into an existing column at position `k`
(`df['pop_under5'] = ...` overwrites when the label already exists). -/
def setRow (i j k : Nat) (r : List Value) : Option (List Value) :=
  match r[i]?, r[j]? with
  | some (.num x), some (.num y) => some (r.set k (Value.num (x + y)))
  | _, _ => none

/-- `df['pop_under5'] = df['pop_under5_male'] + df['pop_under5_female']`:
look the two addend columns up by label (a missing label raises `KeyError`),
then write the element-wise sum into the `pop_under5` column — appended
after all existing columns when no column of that name exists yet. -/
def addTotal (t : Table) : Option Table :=
  match t.cols.findIdx? (fun c => c == "pop_under5_male"),
        t.cols.findIdx? (fun c => c == "pop_under5_female") with
  | some i, some j =>
    match t.cols.findIdx? (fun c => c == "pop_under5") with
    | some k =>
      (mapOption (setRow i j k) t.rows).map (fun rs => ({ cols := t.cols, rows := rs } : Table))
    | none =>
      (mapOption (addRow i j) t.rows).map
        (fun rs => ({ cols := t.cols ++ ["pop_under5"], rows := rs } : Table))
  | _, _ => none

/-- The labels removed by
`df.drop(columns = ['state', 'pop_under5_male', 'pop_under5_female'])`. -/
def droppedCols : List String := ["state", "pop_under5_male", "pop_under5_female"]

/-- A column survives the drop iff its label is not one of the dropped ones. -/
def keepCol (c : String) : Bool := !(droppedCols.contains c)

/-- Remove from one row the cells whose column label is dropped. -/
def filterRow (cols : List String) (r : List Value) : List Value :=
  ((cols.zip r).filter (fun p => keepCol p.1)).map Prod.snd

/-- `df.drop(columns = [...])`: raises `KeyError` when any listed label is
absent, otherwise removes every column carrying one of the labels. -/
def dropColumns (t : Table) : Option Table :=
  if droppedCols.all (fun c => t.cols.contains c) then
    some ⟨t.cols.filter keepCol, t.rows.map (filterRow t.cols)⟩
  else none

/-- The shaper–aggregator chain on the parsed payload: frame construction
and renaming, numeric coercion, derived total, column drop. -/
def pipelineTable (data : List (List String)) : Option Table :=
  (((shape0 data).bind toNumeric).bind addTotal).bind dropColumns

/-- The whole run after the HTTP GET returns: the `if response.status_code
== 200` guard parses the body, any other status leaves `data` unbound so the
first downstream reference dies with a `NameError` (no table, no file). -/
def runPipeline (status : Nat) (data : List (List String)) : Option Table :=
  if status == 200 then pipelineTable data else none

/-- Render one cell the way `df.to_csv` prints it. -/
def renderValue : Value → String
  | .str s => s
  | .num n => toString n

/-- Join fields with the comma separator of `to_csv`. -/
def commaJoin (l : List String) : String := String.intercalate "," l

/-- One CSV record: the rendered cells of one row, comma-separated, with no
index column (`index = False`). -/
def rowLine (r : List Value) : String := commaJoin (r.map renderValue)

/-- The lines of the written file: the header record first, then one record
per data row. -/
def csvLines (t : Table) : List String := commaJoin t.cols :: t.rows.map rowLine

/-- The file content: every line terminated by a newline. -/
def csvContent (t : Table) : String :=
  String.join ((csvLines t).map (fun l => l ++ "\n"))

/-- `os.path.join(cwd, "data", "acs_ward_under5_pop.csv")`. -/
def outputPath (cwd : String) : String :=
  cwd ++ "/" ++ "data" ++ "/" ++ "acs_ward_under5_pop.csv"

/-- The bytes written to the output file, when the run reaches the write. -/
def runOutput (status : Nat) (data : List (List String)) : Option String :=
  (runPipeline status data).map csvContent

/-- The two-row fixture of the specification. -/
def fixture : List (List String) :=
  [["B01001_003E", "B01001_027E", "state_leg_district", "state"],
   ["10", "20", "001", "11"],
   ["5", "7", "002", "11"]]

/-- The per-row composite of the shaper–aggregator chain (`cols0`: the
renamed header labels; `i`, `j`: positions of the two addend columns):
numeric coercion, appended sum, then removal of the dropped cells. -/
def rowPipeline (cols0 : List String) (i j : Nat) (r : List String) :
    Option (List Value) :=
  ((convertRow (r.map Value.str)).bind (addRow i j)).map
    (filterRow (cols0 ++ ["pop_under5"]))

section MapOptionLemmas

variable {α : Type u} {β : Type v}

theorem mapOption_nil (f : α → Option β) : mapOption f [] = some [] := rfl

theorem mapOption_cons (f : α → Option β) (a : α) (as : List α) :
    mapOption f (a :: as) =
      (f a).bind (fun b => (mapOption f as).map (fun bs => b :: bs)) := by
  cases hfa : f a <;> cases hrec : mapOption f as <;>
    simp [mapOption, hfa, hrec]

theorem mapOption_length {f : α → Option β} :
    ∀ {l : List α} {l' : List β}, mapOption f l = some l' → l'.length = l.length := by
  intro l
  induction l with
  | nil => intro l' h; cases h; rfl
  | cons a as ih =>
    intro l' h
    rw [mapOption_cons] at h
    rcases Option.bind_eq_some.mp h with ⟨b, _, h2⟩
    rcases Option.map_eq_some'.mp h2 with ⟨bs, hbs, h3⟩
    subst h3
    simp [ih hbs]

theorem mapOption_getElem? {f : α → Option β} :
    ∀ {l : List α} {l' : List β}, mapOption f l = some l' →
      ∀ n : Nat, l'[n]? = (l[n]?).bind f := by
  intro l
  induction l with
  | nil => intro l' h n; cases h; simp
  | cons a as ih =>
    intro l' h n
    rw [mapOption_cons] at h
    rcases Option.bind_eq_some.mp h with ⟨b, hb, h2⟩
    rcases Option.map_eq_some'.mp h2 with ⟨bs, hbs, h3⟩
    subst h3
    cases n with
    | zero => simpa using hb.symm
    | succ m => simpa using ih hbs m

theorem mapOption_eq_none_of_mem {f : α → Option β} {a : α} :
    ∀ {l : List α}, a ∈ l → f a = none → mapOption f l = none := by
  intro l
  induction l with
  | nil => intro h; cases h
  | cons b bs ih =>
    intro hmem hfa
    rw [mapOption_cons]
    rcases List.mem_cons.mp hmem with h | h
    · subst h; rw [hfa]; rfl
    · rw [ih h hfa]
      cases f b <;> rfl

theorem mapOption_comp {γ : Type*} {f : α → Option β} {g : β → Option γ} :
    ∀ {l : List α} {l₁ : List β} {l₂ : List γ},
      mapOption f l = some l₁ → mapOption g l₁ = some l₂ →
      mapOption (fun a => (f a).bind g) l = some l₂ := by
  intro l
  induction l with
  | nil =>
    intro l₁ l₂ h1 h2
    cases h1; cases h2; rfl
  | cons a as ih =>
    intro l₁ l₂ h1 h2
    rw [mapOption_cons] at h1
    rcases Option.bind_eq_some.mp h1 with ⟨b, hb, h1'⟩
    rcases Option.map_eq_some'.mp h1' with ⟨bs, hbs, h3⟩
    subst h3
    rw [mapOption_cons] at h2
    rcases Option.bind_eq_some.mp h2 with ⟨c, hc, h2'⟩
    rcases Option.map_eq_some'.mp h2' with ⟨cs, hcs, h4⟩
    subst h4
    rw [mapOption_cons, hb]
    simp only [Option.bind_some, hc, Option.some_bind]
    rw [ih hbs hcs]
    rfl

theorem mapOption_map_post {γ : Type*} {f : α → Option β} (g : β → γ) :
    ∀ {l : List α} {l₁ : List β}, mapOption f l = some l₁ →
      mapOption (fun a => (f a).map g) l = some (l₁.map g) := by
  intro l
  induction l with
  | nil => intro l₁ h; cases h; rfl
  | cons a as ih =>
    intro l₁ h
    rw [mapOption_cons] at h
    rcases Option.bind_eq_some.mp h with ⟨b, hb, h2⟩
    rcases Option.map_eq_some'.mp h2 with ⟨bs, hbs, h3⟩
    subst h3
    rw [mapOption_cons, hb]
    simp only [Option.map_some', Option.some_bind]
    rw [ih hbs]
    rfl

theorem mapOption_map_pre {γ : Type*} {f : β → Option γ} (g : α → β) :
    ∀ (l : List α), mapOption f (l.map g) = mapOption (fun a => f (g a)) l := by
  intro l
  induction l with
  | nil => rfl
  | cons a as ih =>
    simp only [List.map_cons, mapOption_cons, ih]

end MapOptionLemmas

section StageLemmas

/-- The numeric coercion never adds or removes rows. -/
theorem toNumeric_rows_length {t t' : Table} (h : toNumeric t = some t') :
    t'.rows.length = t.rows.length := by
  unfold toNumeric at h
  rcases Option.map_eq_some'.mp h with ⟨rs, hrs, ht⟩
  subst ht
  exact mapOption_length hrs

/-- The derived-total stage never adds or removes rows. -/
theorem addTotal_rows_length {t t' : Table} (h : addTotal t = some t') :
    t'.rows.length = t.rows.length := by
  unfold addTotal at h
  split at h
  next i j _ _ =>
    split at h
    next k _ =>
      rcases Option.map_eq_some'.mp h with ⟨rs, hrs, ht⟩
      subst ht
      exact mapOption_length hrs
    next _ =>
      rcases Option.map_eq_some'.mp h with ⟨rs, hrs, ht⟩
      subst ht
      exact mapOption_length hrs
  next => cases h

/-- The column drop never adds or removes rows. -/
theorem dropColumns_rows_length {t t' : Table} (h : dropColumns t = some t') :
    t'.rows.length = t.rows.length := by
  unfold dropColumns at h
  split at h
  · cases h; simp
  · cases h

end StageLemmas

/-- Claim C2: in the table captured before the column drop, every row
carries in its appended last cell the sum of its two addend cells — the
value the `pop_under5` column holds for that row. -/
theorem addTotal_row_sum (t0 t1 : Table) (i j : Nat)
    (hi : t0.cols.findIdx? (fun c => c == "pop_under5_male") = some i)
    (hj : t0.cols.findIdx? (fun c => c == "pop_under5_female") = some j)
    (hnew : t0.cols.findIdx? (fun c => c == "pop_under5") = none)
    (h : addTotal t0 = some t1) :
    ∀ n : Nat, ∀ r : List Value, t1.rows[n]? = some r →
      ∃ x y : Int, r[i]? = some (Value.num x) ∧ r[j]? = some (Value.num y) ∧
        r.getLast? = some (Value.num (x + y)) := by
  unfold addTotal at h
  simp only [hi, hj, hnew] at h
  rcases Option.map_eq_some'.mp h with ⟨rs, hrs, ht1⟩
  subst ht1
  intro n r hr
  have hr' : rs[n]? = some r := hr
  have hget := mapOption_getElem? hrs n
  rw [hr'] at hget
  rcases Option.bind_eq_some.mp hget.symm with ⟨a, _, har⟩
  unfold addRow at har
  split at har
  next x y hax hay =>
    cases har
    have hxlt : i < a.length := by
      rcases List.getElem?_eq_some.mp hax with ⟨hlt, _⟩
      exact hlt
    have hylt : j < a.length := by
      rcases List.getElem?_eq_some.mp hay with ⟨hlt, _⟩
      exact hlt
    refine ⟨x, y, ?_, ?_, ?_⟩
    · rw [List.getElem?_append_left hxlt]; exact hax
    · rw [List.getElem?_append_left hylt]; exact hay
    · exact List.getLast?_concat _
  next => cases har

/-- Witness for C2 at the numeric fixture table. -/
theorem addTotal_row_sum_witness :
    ∃ x y : Int,
      ([Value.num 10, Value.num 20, Value.str "001", Value.str "11",
        Value.num 30] : List Value)[0]? = some (Value.num x) ∧
      ([Value.num 10, Value.num 20, Value.str "001", Value.str "11",
        Value.num 30] : List Value)[1]? = some (Value.num y) ∧
      ([Value.num 10, Value.num 20, Value.str "001", Value.str "11",
        Value.num 30] : List Value).getLast? = some (Value.num (x + y)) :=
  addTotal_row_sum
    ⟨["pop_under5_male", "pop_under5_female", "state_leg_district", "state"],
      [[Value.num 10, Value.num 20, Value.str "001", Value.str "11"],
       [Value.num 5, Value.num 7, Value.str "002", Value.str "11"]]⟩
    ⟨["pop_under5_male", "pop_under5_female", "state_leg_district", "state",
      "pop_under5"],
      [[Value.num 10, Value.num 20, Value.str "001", Value.str "11", Value.num 30],
       [Value.num 5, Value.num 7, Value.str "002", Value.str "11", Value.num 12]]⟩
    0 1 (by decide) (by decide) (by decide) (by decide) 0
    [Value.num 10, Value.num 20, Value.str "001", Value.str "11", Value.num 30]
    (by decide)

/-- Claim C3: any non-200 status skips the `data` assignment, so the run
dies before building the table and writes no output. -/
theorem run_non200 (status : Nat) (data : List (List String))
    (h : status ≠ 200) : runOutput status data = none := by
  have hb : (status == 200) = false := beq_eq_false_iff_ne.mpr h
  simp [runOutput, runPipeline, hb]

/-- Witness for C3 at status 404. -/
theorem run_non200_witness : runOutput 404 fixture = none :=
  run_non200 404 fixture (by decide)

/-- Claim C4: a successful run keeps one table row per payload row after
the header: the output row count is the payload row count minus one. -/
theorem pipeline_row_count (data : List (List String)) (t : Table)
    (h : pipelineTable data = some t) : t.rows.length = data.length - 1 := by
  unfold pipelineTable at h
  rcases Option.bind_eq_some.mp h with ⟨t2, h2, hdrop⟩
  rcases Option.bind_eq_some.mp h2 with ⟨t1, h1, hadd⟩
  rcases Option.bind_eq_some.mp h1 with ⟨t0, hsh, hnum⟩
  cases data with
  | nil => cases hsh
  | cons hdr rest =>
    have h0 : t0.rows.length = rest.length := by
      cases hsh; simp
    rw [dropColumns_rows_length hdrop, addTotal_rows_length hadd,
      toNumeric_rows_length hnum, h0]
    rfl

/-- Witness for C4 at the fixture. -/
theorem pipeline_row_count_witness :
    (⟨["state_leg_district", "pop_under5"],
      [[Value.str "001", Value.num 30],
       [Value.str "002", Value.num 12]]⟩ : Table).rows.length =
      fixture.length - 1 :=
  pipeline_row_count fixture _ (by decide)

/-- Claim C5: none of the labels `state`, `pop_under5_male`,
`pop_under5_female` survives into the final column set. -/
theorem pipeline_dropped_cols (data : List (List String)) (t : Table)
    (h : pipelineTable data = some t) :
    "state" ∉ t.cols ∧ "pop_under5_male" ∉ t.cols ∧
      "pop_under5_female" ∉ t.cols := by
  unfold pipelineTable at h
  rcases Option.bind_eq_some.mp h with ⟨t2, _, hdrop⟩
  unfold dropColumns at hdrop
  split at hdrop
  · cases hdrop
    refine ⟨?_, ?_, ?_⟩ <;> intro hmem <;>
      exact absurd (List.mem_filter.mp hmem).2 (by decide)
  · cases hdrop

/-- Witness for C5 at the fixture. -/
theorem pipeline_dropped_cols_witness :
    "state" ∉ (["state_leg_district", "pop_under5"] : List String) ∧
      "pop_under5_male" ∉ (["state_leg_district", "pop_under5"] : List String) ∧
      "pop_under5_female" ∉ (["state_leg_district", "pop_under5"] : List String) :=
  pipeline_dropped_cols fixture
    ⟨["state_leg_district", "pop_under5"],
      [[Value.str "001", Value.num 30], [Value.str "002", Value.num 12]]⟩
    (by decide)

/-- Claim C1: on the fixed two-row fixture the shaper–aggregator pipeline
produces exactly the two rows `(state_leg_district=001, pop_under5=30)` and
`(state_leg_district=002, pop_under5=12)`. -/
theorem pipeline_fixture :
    runPipeline 200 fixture =
      some ⟨["state_leg_district", "pop_under5"],
        [[Value.str "001", Value.num 30], [Value.str "002", Value.num 12]]⟩ := by
  decide

/-- Every element of a list is in its whitespace-trimmed core or is
whitespace. -/
theorem mem_trim_or_ws {x : Char} {l : List Char} (hx : x ∈ l) :
    x ∈ trimWs l ∨ isWs x = true := by
  by_cases hws : isWs x = true
  · exact Or.inr hws
  · left
    have hx1 : x ∈ l.takeWhile isWs ++ l.dropWhile isWs := by
      rw [List.takeWhile_append_dropWhile]; exact hx
    have h1 : x ∈ l.dropWhile isWs := by
      rcases List.mem_append.mp hx1 with h | h
      · exact absurd (List.mem_takeWhile_imp h) hws
      · exact h
    have h2 : x ∈ (l.dropWhile isWs).reverse := List.mem_reverse.mpr h1
    have hx2 : x ∈ ((l.dropWhile isWs).reverse).takeWhile isWs ++
        ((l.dropWhile isWs).reverse).dropWhile isWs := by
      rw [List.takeWhile_append_dropWhile]; exact h2
    have h3 : x ∈ ((l.dropWhile isWs).reverse).dropWhile isWs := by
      rcases List.mem_append.mp hx2 with h | h
      · exact absurd (List.mem_takeWhile_imp h) hws
      · exact h
    exact List.mem_reverse.mpr h3

/-- The whitespace-trimmed core is carved out of the original list. -/
theorem mem_of_mem_trim {x : Char} {l : List Char} (hx : x ∈ trimWs l) :
    x ∈ l := by
  unfold trimWs at hx
  rw [List.mem_reverse] at hx
  have h1 := (List.dropWhile_sublist isWs).subset hx
  rw [List.mem_reverse] at h1
  exact (List.dropWhile_sublist isWs).subset h1

/-- A successfully parsed digit run is non-empty and all digits. -/
theorem parseNatList_digits :
    ∀ {l : List Char} {n : Nat}, parseNatList l = some n →
      l ≠ [] ∧ l.all isDigitChar = true := by
  intro l
  induction l with
  | nil => intro n h; cases h
  | cons c cs ih =>
    intro n h
    refine ⟨by simp, ?_⟩
    cases cs with
    | nil =>
      simp only [parseNatList] at h
      simp [isDigitChar, h]
    | cons d ds =>
      simp only [parseNatList] at h
      split at h
      · rename_i dd nn hd hrec
        have h2 := ih hrec
        simp [isDigitChar, hd, h2.2]
      · cases h

/-- Soundness of the generous acceptance model: any string the integral
parser converts lies in the `numericLexeme` set, so rejection by
`numericLexeme` implies the parse fails. -/
theorem parseInt_lexeme {s : String} {n : Int} (h : parseInt s = some n) :
    numericLexeme s = true := by
  unfold parseInt at h
  cases ht : trimWs s.toList with
  | nil =>
    rw [ht] at h
    dsimp only at h
    cases h
  | cons c cs =>
    rw [ht] at h
    dsimp only at h
    have key : (∀ x ∈ c :: cs, numericAlphabet x = true) ∧
        (∃ d ∈ c :: cs, isDigitChar d = true) := by
      by_cases h45 : c = Char.ofNat 45
      · rw [if_pos h45] at h
        rcases Option.map_eq_some'.mp h with ⟨m, hm, -⟩
        rcases parseNatList_digits hm with ⟨hne, hall⟩
        constructor
        · intro x hx
          rcases List.mem_cons.mp hx with hxc | hxcs
          · rw [hxc, h45]; decide
          · have hx2 := List.all_eq_true.mp hall x hxcs
            simp [numericAlphabet, hx2]
        · cases cs with
          | nil => exact absurd rfl hne
          | cons d ds =>
            exact ⟨d, by simp, List.all_eq_true.mp hall d (by simp)⟩
      · rw [if_neg h45] at h
        by_cases h43 : c = Char.ofNat 43
        · rw [if_pos h43] at h
          rcases Option.map_eq_some'.mp h with ⟨m, hm, -⟩
          rcases parseNatList_digits hm with ⟨hne, hall⟩
          constructor
          · intro x hx
            rcases List.mem_cons.mp hx with hxc | hxcs
            · rw [hxc, h43]; decide
            · have hx2 := List.all_eq_true.mp hall x hxcs
              simp [numericAlphabet, hx2]
          · cases cs with
            | nil => exact absurd rfl hne
            | cons d ds =>
              exact ⟨d, by simp, List.all_eq_true.mp hall d (by simp)⟩
        · rw [if_neg h43] at h
          rcases Option.map_eq_some'.mp h with ⟨m, hm, -⟩
          rcases parseNatList_digits hm with ⟨-, hall⟩
          constructor
          · intro x hx
            have hx2 := List.all_eq_true.mp hall x hx
            simp [numericAlphabet, hx2]
          · exact ⟨c, by simp, List.all_eq_true.mp hall c (by simp)⟩
    unfold numericLexeme
    simp only [Bool.or_eq_true, Bool.and_eq_true]
    refine Or.inl ⟨?_, ?_⟩
    · rw [List.all_eq_true]
      intro x hx
      rcases mem_trim_or_ws hx with htr | hws
      · rw [ht] at htr
        exact key.1 x htr
      · simp [numericAlphabet, hws]
    · rw [List.any_eq_true]
      rcases key.2 with ⟨d, hdmem, hdd⟩
      refine ⟨d, ?_, ?_⟩
      · exact mem_of_mem_trim (show d ∈ trimWs s.toList by rw [ht]; exact hdmem)
      · simp [hasDigitOrHigh, hdd]

/-- Contrapositive: a string outside the generous acceptance set does not
parse as an integer either. -/
theorem parseInt_eq_none_of_reject {s : String}
    (h : numericLexeme s = false) : parseInt s = none := by
  cases hp : parseInt s with
  | none => rfl
  | some n => rw [parseInt_lexeme hp] at h; cases h

/-- A row whose cell at position 0 or 1 does not coerce makes the whole
per-row coercion raise. -/
theorem convertRow_none {r : List Value} {k : Nat} {v : Value}
    (hk : k < 2) (hv : r[k]? = some v) (hnone : toNum v = none) :
    convertRow r = none := by
  cases r with
  | nil => simp at hv
  | cons a as =>
    cases as with
    | nil =>
      cases k with
      | zero =>
        simp at hv
        subst hv
        simp [convertRow, hnone]
      | succ m => simp at hv
    | cons b bs =>
      cases k with
      | zero =>
        simp at hv
        subst hv
        cases htb : toNum b <;> simp [convertRow, hnone, htb]
      | succ m =>
        cases m with
        | zero =>
          simp at hv
          subst hv
          cases hta : toNum a <;> simp [convertRow, hnone, hta]
        | succ mm => exact absurd hk (by omega)

/-- Claim C6: the numeric coercion touches exactly the cells at positions
0 and 1 — those are replaced by their parsed values, every later cell is
unchanged — and a value in those two columns that cannot parse as a number
(rejected even by `numericLexeme`, the generous over-approximation of the
library's accepted numeric forms, so the library genuinely raises) makes
the whole run raise before any output is produced. -/
theorem toNumeric_exact :
    (∀ r r' : List Value, convertRow r = some r' →
      (∀ k : Nat, 2 ≤ k → r'[k]? = r[k]?) ∧
      (∀ k : Nat, k < 2 → ∀ v : Value, r[k]? = some v →
        ∃ w : Value, toNum v = some w ∧ r'[k]? = some w)) ∧
    (∀ (hdr : List String) (rest : List (List String)) (r : List String)
      (k : Nat) (s : String), r ∈ rest → k < 2 → r[k]? = some s →
      numericLexeme s = false → pipelineTable (hdr :: rest) = none) := by
  constructor
  · intro r r' h
    cases r with
    | nil =>
      cases h
      exact ⟨fun k _ => rfl, fun k _ v hv => by simp at hv⟩
    | cons a as =>
      cases as with
      | nil =>
        simp only [convertRow] at h
        rcases Option.map_eq_some'.mp h with ⟨x, hx, hr'⟩
        subst hr'
        constructor
        · intro k hk
          match k, hk with
          | (m + 2), _ => simp
        · intro k hk v hv
          match k, hk with
          | 0, _ =>
            simp at hv
            subst hv
            exact ⟨x, hx, rfl⟩
          | 1, _ => simp at hv
      | cons b bs =>
        simp only [convertRow] at h
        split at h
        next x y hx hy =>
          cases h
          constructor
          · intro k hk
            match k, hk with
            | (m + 2), _ => simp
          · intro k hk v hv
            match k, hk with
            | 0, _ =>
              simp at hv
              subst hv
              exact ⟨x, hx, rfl⟩
            | 1, _ =>
              simp at hv
              subst hv
              exact ⟨y, hy, by simp⟩
        next => cases h
  · intro hdr rest r k s hmem hk hget hrej
    have hparse : parseInt s = none := parseInt_eq_none_of_reject hrej
    have hcell : (r.map Value.str)[k]? = some (Value.str s) := by
      rw [List.getElem?_map, hget]
      rfl
    have h1 : convertRow (r.map Value.str) = none :=
      convertRow_none hk hcell (by simp [toNum, hparse])
    have h2 : mapOption convertRow (rest.map (fun r => r.map Value.str)) = none :=
      mapOption_eq_none_of_mem (List.mem_map.mpr ⟨r, hmem, rfl⟩) h1
    simp [pipelineTable, shape0, toNumeric, h2]

/-- Witness for C6: a non-numeric value in column 0 aborts the run. -/
theorem toNumeric_exact_witness :
    pipelineTable [["B01001_003E", "B01001_027E", "state_leg_district", "state"],
      ["x", "20", "001", "11"]] = none :=
  toNumeric_exact.2 ["B01001_003E", "B01001_027E", "state_leg_district", "state"]
    [["x", "20", "001", "11"]] ["x", "20", "001", "11"] 0 "x"
    (by decide) (by decide) (by decide) (by decide)

/-- Claim C7: the writer targets the working-directory-relative path
`data/acs_ward_under5_pop.csv` and emits comma-separated text: a header
record first, then exactly one record per table row, each record the
comma-joined rendered cells of its row with no index column. -/
theorem writer_spec (cwd : String) (t : Table) :
    outputPath cwd = cwd ++ "/data/acs_ward_under5_pop.csv" ∧
    (csvLines t).length = t.rows.length + 1 ∧
    (csvLines t)[0]? = some (commaJoin t.cols) ∧
    ∀ n : Nat, (csvLines t)[n + 1]? = (t.rows[n]?).map rowLine := by
  refine ⟨?_, ?_, ?_, ?_⟩
  · simp only [outputPath, String.append_assoc]
    congr 1
  · simp [csvLines]
  · simp [csvLines]
  · intro n
    simp [csvLines]

/-- Claim C8: the transform and write stages are deterministic — two runs
over identical fetched content produce identical output bytes. -/
theorem run_deterministic (status status' : Nat)
    (data data' : List (List String)) (hs : status = status')
    (hd : data = data') : runOutput status data = runOutput status' data' := by
  rw [hs, hd]

/-- Witness for C8 at the fixture. -/
theorem run_deterministic_witness :
    runOutput 200 fixture = runOutput 200 fixture :=
  run_deterministic 200 200 fixture fixture rfl rfl

/-- A label absent from a list is found at no index. -/
theorem findIdx?_eq_none_of_not_mem {c : String} {l : List String}
    (h : c ∉ l) : l.findIdx? (fun x => x == c) = none := by
  rw [List.findIdx?_eq_none_iff]
  intro x hx
  simp only [beq_eq_false_iff_ne]
  intro hxc
  exact h (hxc ▸ hx)

/-- Decomposition of a successful run: the shaper finds both addend
columns, every stage acts row-wise, and the final columns and rows are the
filtered extension of the renamed header and of the per-row results. -/
theorem pipeline_decomp (hdr : List String) (rest : List (List String))
    (t : Table) (hpu : "pop_under5" ∉ hdr.map renameCol)
    (h : pipelineTable (hdr :: rest) = some t) :
    ∃ (i j : Nat) (rs1 rs2 : List (List Value)),
      (hdr.map renameCol).findIdx? (fun c => c == "pop_under5_male") = some i ∧
      (hdr.map renameCol).findIdx? (fun c => c == "pop_under5_female") = some j ∧
      mapOption convertRow (rest.map (fun r => r.map Value.str)) = some rs1 ∧
      mapOption (addRow i j) rs1 = some rs2 ∧
      t.cols = ((hdr.map renameCol) ++ ["pop_under5"]).filter keepCol ∧
      t.rows = rs2.map (filterRow ((hdr.map renameCol) ++ ["pop_under5"])) := by
  unfold pipelineTable at h
  rcases Option.bind_eq_some.mp h with ⟨t2, h2, hdrop⟩
  rcases Option.bind_eq_some.mp h2 with ⟨t1, h1, hadd⟩
  rcases Option.bind_eq_some.mp h1 with ⟨t0, hsh, hnum⟩
  simp only [shape0, Option.some.injEq] at hsh
  subst hsh
  unfold toNumeric at hnum
  rcases Option.map_eq_some'.mp hnum with ⟨rs1, hrs1, ht1⟩
  subst ht1
  unfold addTotal at hadd
  rw [findIdx?_eq_none_of_not_mem hpu] at hadd
  split at hadd
  next i j hi hj =>
    rcases Option.map_eq_some'.mp hadd with ⟨rs2, hrs2, ht2⟩
    subst ht2
    unfold dropColumns at hdrop
    split at hdrop
    · cases hdrop
      exact ⟨i, j, rs1, rs2, hi, hj, hrs1, hrs2, rfl, rfl⟩
    · cases hdrop
  next => cases hadd

/-- Claim C9: a successful run never reorders rows — the final rows are an
order-preserving per-row image of the raw data rows. -/
theorem pipeline_preserves_order (hdr : List String)
    (rest : List (List String)) (t : Table)
    (hpu : "pop_under5" ∉ hdr.map renameCol)
    (h : pipelineTable (hdr :: rest) = some t) :
    ∃ i j : Nat,
      (hdr.map renameCol).findIdx? (fun c => c == "pop_under5_male") = some i ∧
      (hdr.map renameCol).findIdx? (fun c => c == "pop_under5_female") = some j ∧
      mapOption (rowPipeline (hdr.map renameCol) i j) rest = some t.rows := by
  rcases pipeline_decomp hdr rest t hpu h with
    ⟨i, j, rs1, rs2, hi, hj, h1, h2, _, hrows⟩
  refine ⟨i, j, hi, hj, ?_⟩
  have h1' : mapOption (fun r => convertRow (r.map Value.str)) rest = some rs1 := by
    rw [← mapOption_map_pre]
    exact h1
  have hc := mapOption_comp h1' h2
  have hm :=
    mapOption_map_post (filterRow ((hdr.map renameCol) ++ ["pop_under5"])) hc
  rw [hrows]
  exact hm

/-- Witness for C9 at the fixture. -/
theorem pipeline_preserves_order_witness :
    ∃ i j : Nat,
      ((["B01001_003E", "B01001_027E", "state_leg_district", "state"] :
        List String).map renameCol).findIdx?
          (fun c => c == "pop_under5_male") = some i ∧
      ((["B01001_003E", "B01001_027E", "state_leg_district", "state"] :
        List String).map renameCol).findIdx?
          (fun c => c == "pop_under5_female") = some j ∧
      mapOption
        (rowPipeline ((["B01001_003E", "B01001_027E", "state_leg_district",
          "state"] : List String).map renameCol) i j)
        [["10", "20", "001", "11"], ["5", "7", "002", "11"]] =
        some (⟨["state_leg_district", "pop_under5"],
          [[Value.str "001", Value.num 30],
           [Value.str "002", Value.num 12]]⟩ : Table).rows :=
  pipeline_preserves_order
    ["B01001_003E", "B01001_027E", "state_leg_district", "state"]
    [["10", "20", "001", "11"], ["5", "7", "002", "11"]]
    ⟨["state_leg_district", "pop_under5"],
      [[Value.str "001", Value.num 30], [Value.str "002", Value.num 12]]⟩
    (by decide) (by decide)

/-- Claim C10: the final column order is the retained (non-dropped) renamed
header columns, in header order, followed by the derived `pop_under5`
column appended last. -/
theorem pipeline_cols_order (hdr : List String) (rest : List (List String))
    (t : Table) (hpu : "pop_under5" ∉ hdr.map renameCol)
    (h : pipelineTable (hdr :: rest) = some t) :
    t.cols = (hdr.map renameCol).filter keepCol ++ ["pop_under5"] := by
  rcases pipeline_decomp hdr rest t hpu h with
    ⟨i, j, rs1, rs2, _, _, _, _, hcols, _⟩
  rw [hcols, List.filter_append]
  congr 1

/-- Witness for C10 at the fixture. -/
theorem pipeline_cols_order_witness :
    (⟨["state_leg_district", "pop_under5"],
      [[Value.str "001", Value.num 30],
       [Value.str "002", Value.num 12]]⟩ : Table).cols =
      ((["B01001_003E", "B01001_027E", "state_leg_district", "state"] :
        List String).map renameCol).filter keepCol ++ ["pop_under5"] :=
  pipeline_cols_order
    ["B01001_003E", "B01001_027E", "state_leg_district", "state"]
    [["10", "20", "001", "11"], ["5", "7", "002", "11"]]
    ⟨["state_leg_district", "pop_under5"],
      [[Value.str "001", Value.num 30], [Value.str "002", Value.num 12]]⟩
    (by decide) (by decide)

end Acs
